import Mathlib

/-!
# Verification of the z1lms-edutech portal lifecycle engine

Shallow embedding of the portal lifecycle scripts:
* `templates/scripts/portal-update.js` (`updatePortal`, `backupPortal`, `mergeDirectories`)
* `templates/scripts/portal-remove.js` (`removePortal`, `createBackup`,
  `removeFromWorkspaces`, `parseArgs`)
* the `portal-add` script (`addPortal`, `getRegistry`) and the `portal-list`
  script (`getRegistry` with cache freshness check).

File trees are modelled as finite labelled trees; file contents distinguish
the portal metadata file (JSON parseable into the tool's config record),
other JSON-parseable text, unparseable text, and the backup sidecar record.
-/

namespace EduTech

/-- The portal metadata record stored in `.portal-config.json`.  All fields
are optional, mirroring JS object field access (absent fields read as
`undefined`). -/
structure PortalConfig where
  pname : Option String := none
  theme : Option String := none
  repo : Option String := none
  version : Option String := none
  installedAt : Option String := none
  source : Option String := none
  updatedAt : Option String := none
  previousVersion : Option String := none
  backupLocation : Option String := none
  deriving DecidableEq, Repr

/-- The sidecar record written by `createBackup` in `portal-remove.js`. -/
structure BackupInfo where
  portal : String
  backedUpAt : String
  originalPath : String
  backupLocation : String
  deriving DecidableEq, Repr

/-- Content of a file on disk, abstracted by how `JSON.parse` treats it:
`meta` is a file parseable as a portal metadata record, `binfo` is a backup
sidecar record, `jsonOther` is any other JSON-parseable text, `raw` is text
on which `JSON.parse` throws. -/
inductive FileContent where
  | meta : PortalConfig → FileContent
  | binfo : BackupInfo → FileContent
  | jsonOther : String → FileContent
  | raw : String → FileContent
  deriving DecidableEq, Repr

/-- `JSON.parse` succeeds on everything except `raw` content. -/
def parsesJson : FileContent → Bool
  | .raw _ => false
  | _ => true

/-- Result of `JSON.parse` followed by reading the portal-config fields:
`meta c` yields `c`; other parseable JSON yields an object whose
config fields are all `undefined`; `raw` throws (`none`). -/
def parseConfig : FileContent → Option PortalConfig
  | .meta c => some c
  | .binfo _ => some {}
  | .jsonOther _ => some {}
  | .raw _ => none

/-- A file tree: either a file with content, or a directory with a list of
named entries (the order is the `readdirSync` order). -/
inductive FSTree where
  | file : FileContent → FSTree
  | dir : List (String × FSTree) → FSTree

/-- First entry with the given name (directory entry lookup). -/
def lookupE : List (String × FSTree) → String → Option FSTree
  | [], _ => none
  | (m, t) :: rest, n => if m = n then some t else lookupE rest n

/-- Overwrite the first entry with the given name, or append a new entry
(the effect of writing the path `n` inside the directory). -/
def setE : List (String × FSTree) → String → FSTree → List (String × FSTree)
  | [], n, v => [(n, v)]
  | (m, t) :: rest, n, v =>
    if m = n then (m, v) :: rest else (m, t) :: setE rest n v

/-- Resolve a relative path inside a tree. -/
def getPath : FSTree → List String → Option FSTree
  | t, [] => some t
  | .file _, _ :: _ => none
  | .dir es, n :: p =>
    match lookupE es n with
    | some t => getPath t p
    | none => none

def isFile : FSTree → Bool
  | .file _ => true
  | .dir _ => false

/-- No duplicate names in a list of strings. -/
def nodupB : List String → Bool
  | [] => true
  | x :: xs => !(xs.contains x) && nodupB xs

def keys (es : List (String × FSTree)) : List String := es.map Prod.fst

mutual

/-- Well-formed tree: every directory has pairwise distinct entry names
(always true of a real directory listing). -/
def wfT : FSTree → Bool
  | .file _ => true
  | .dir es => nodupB (keys es) && wfL es

def wfL : List (String × FSTree) → Bool
  | [] => true
  | e :: rest => wfT e.2 && wfL rest

end

/-- All entries are files named `.portal-config.json` (the only directory
contents that `mergeDirectories` can copy onto a target path occupied by a
plain file without `copyFileSync`/`mkdirSync` throwing, because such
entries are skipped). -/
def allCfgFiles (es : List (String × FSTree)) : Bool :=
  es.all fun e => e.1 = ".portal-config.json" && isFile e.2

mutual

/-- One iteration of the `for` loop in `mergeDirectories(sourceDir, targetDir)`
of `portal-update.js`, processing the source entry `(n, se)` against the
target entries `tes`.  `none` models a thrown filesystem error. -/
def mergeEntry (tes : List (String × FSTree)) (n : String) (se : FSTree) :
    Option (List (String × FSTree)) :=
  match se with
  | .file c =>
    -- `if (file === '.portal-config.json') continue;`
    if n = ".portal-config.json" then some tes
    else
      match lookupE tes n with
      | some (.dir _) => none        -- copyFileSync onto a directory throws
      | _ => some (setE tes n (.file c))
  | .dir subSes =>
    match lookupE tes n with
    | some (.dir subTes) =>
      (mergeDirectories subSes subTes).map fun m => setE tes n (.dir m)
    | some (.file _) =>
      -- target path exists (as a file): no mkdir, recursion copies into a
      -- non-directory and throws unless every entry is a skipped config file
      if allCfgFiles subSes then some tes else none
    | none =>
      -- mkdirSync creates an empty directory, then the recursion fills it
      (mergeDirectories subSes []).map fun m => setE tes n (.dir m)

/-- `mergeDirectories(sourceDir, targetDir)` from `portal-update.js`, on the
entry lists of the two directories; returns the final target entries, or
`none` when the JS function throws. -/
def mergeDirectories (ses tes : List (String × FSTree)) :
    Option (List (String × FSTree)) :=
  match ses with
  | [] => some tes
  | (n, se) :: rest =>
    match mergeEntry tes n se with
    | some tes1 => mergeDirectories rest tes1
    | none => none

end

/-! ## The update operation (`portal-update.js`) -/

/-- Environment of one `updatePortal` invocation: the outcome of the
`git status` probe (`none` when the portal is not a git checkout, i.e. the
command throws; `some n` for a checkout with `n` uncommitted changes), the
outcome of the `npx degit` fetch (`none` when it throws, otherwise the
entries of the fetched temporary directory), and the two timestamps drawn
during the run. -/
structure UpdateEnv where
  gitChanges : Option Nat
  fetch : Option (List (String × FSTree))
  now : Nat
  nowIso : String

/-- Observable result of `updatePortal`: process exit code, the final tree
at `portals/<name>` (`none` if absent), whether a backup directory was ever
created, and the backup directory (name and contents) still on disk at the
end (`none` after a rollback, which renames it back into the portal path). -/
structure UpdateResult where
  exitCode : Nat
  portal : Option FSTree
  backupMade : Bool
  backupAt : Option (String × FSTree)

/-- Step 2 of `updatePortal`: abort when the portal is a git checkout with a
nonzero number of uncommitted changes and `--force` was not given. -/
def blockedByGit : Option Nat → Bool → Bool
  | some n, false => n != 0
  | _, _ => false

/-- `getPortalConfig`: read and parse `portals/<name>/.portal-config.json`
from the portal directory entries; `none` models the thrown error (missing
file, a directory at that path, or unparseable content). -/
def getPortalConfig (es : List (String × FSTree)) : Option PortalConfig :=
  match lookupE es ".portal-config.json" with
  | some (.file fc) => parseConfig fc
  | _ => none

/-- `backupPortal` of `portal-update.js` names the backup directory
`backup-<name>-<Date.now()>`, at the top of the working directory. -/
def backupPortalDirName (portalName : String) (now : Nat) : String :=
  "backup-" ++ portalName ++ "-" ++ toString now

/-- `backupPortal` copies the portal tree verbatim (`cp -r`); it writes no
sidecar record. -/
def backupPortalTree (portal : FSTree) : FSTree := portal

/-- Steps 4 to 8 of `updatePortal` (the region guarded by the
`try { ... } catch` whose handler restores from backup): fetch, version
peek, merge or replace, metadata rewrite, dependency check.  Returns the
final live portal tree, or `none` when any step throws. -/
def updateBody (force : Bool) (env : UpdateEnv) (cfg : PortalConfig)
    (bname : String) (es0 : List (String × FSTree)) : Option FSTree :=
  match env.fetch with
  | none => none                              -- degit threw
  | some tEntries =>
    if tEntries.isEmpty then none             -- "empty directory" check
    else
      -- step 5: peek at the fetched `.portal-config.json` (log only, but
      -- reading a directory or unparseable JSON throws here)
      let step5ok :=
        match lookupE tEntries ".portal-config.json" with
        | some (.file fc) => parsesJson fc
        | some (.dir _) => false
        | none => true
      if !step5ok then none
      else
        -- step 6: force replace, or merge
        let live1? :=
          if force then some tEntries else mergeDirectories tEntries es0
        match live1? with
        | none => none
        | some live1 =>
          -- step 7: rewrite the metadata file
          let updatedCfg :=
            { cfg with
              updatedAt := some env.nowIso
              previousVersion := cfg.version
              backupLocation := some bname }
          let live2 := setE live1 ".portal-config.json" (.file (.meta updatedCfg))
          -- step 8: compare package.json dependencies (reads both the new
          -- and the backed-up package.json; a read or parse failure throws)
          match lookupE live2 "package.json" with
          | none => some (.dir live2)
          | some (.dir _) => none
          | some (.file fcNew) =>
            match lookupE es0 "package.json" with
            | some (.file fcOld) =>
              if parsesJson fcOld && parsesJson fcNew then some (.dir live2) else none
            | _ => none

/-- `updatePortal(portalName, force)` of `portal-update.js`, as a function
of the initial tree at `portals/<name>` and the run environment. -/
def updatePortal (portalName : String) (force : Bool) (env : UpdateEnv)
    (portal0 : Option FSTree) : UpdateResult :=
  match portal0 with
  | none => ⟨1, none, false, none⟩                     -- step 1 fails
  | some (.file c) => ⟨1, some (.file c), false, none⟩ -- no config inside
  | some (.dir es0) =>
    match getPortalConfig es0 with
    | none => ⟨1, some (.dir es0), false, none⟩        -- step 1 fails
    | some cfg =>
      if blockedByGit env.gitChanges force then
        ⟨1, some (.dir es0), false, none⟩              -- step 2 aborts
      else
        -- step 3: backup (cp -r of the live tree)
        let bname := backupPortalDirName portalName env.now
        match updateBody force env cfg bname es0 with
        | some liveF =>
          ⟨0, some liveF, true, some (bname, backupPortalTree (.dir es0))⟩
        | none =>
          -- catch: delete the partial live directory, rename the backup
          -- into its place, exit(1)
          ⟨1, some (backupPortalTree (.dir es0)), true, none⟩

/-! ## The remove operation (`portal-remove.js`) -/

/-- Environment of one `removePortal` invocation: the `git status` probe,
the operator's answers to the three possible prompts, whether the
`cp -r` inside `createBackup` succeeds, whether the final `rmSync`
succeeds, and the ISO timestamp used in the backup directory name. -/
structure RemoveEnv where
  gitChanges : Option Nat
  answerRemove : Bool
  answerBackup : Bool
  answerContinue : Bool
  backupOk : Bool
  rmOk : Bool
  ts : String

inductive RemoveOutcome where
  | notFound | cancelled | removed | rmFailed
  deriving DecidableEq

/-- Observable result of `removePortal`: outcome, final tree at
`portals/<name>`, the backup directory created (name and entries), and the
interactive prompts issued, in order. -/
structure RemoveResult where
  outcome : RemoveOutcome
  portal : Option FSTree
  backupCreated : Option (String × List (String × FSTree))
  prompts : List String
  exitCode : Nat

/-- Whether a directory entry can be read and `JSON.parse`d without
throwing (used by `getPortalInfo` on `.portal-config.json` and
`package.json`; an absent file is tolerated). -/
def entryParses : Option FSTree → Bool
  | none => true
  | some (.file fc) => parsesJson fc
  | some (.dir _) => false

/-- `getPortalInfo` succeeds: the portal path is a directory and its
config and package files, when present, parse. -/
def portalReadable : FSTree → Bool
  | .file _ => false
  | .dir es =>
    entryParses (lookupE es ".portal-config.json") &&
      entryParses (lookupE es "package.json")

/-- `createBackup` of `portal-remove.js` names the backup directory
`portal-backups/<name>-<timestamp>`. -/
def createBackupDirName (portalName ts : String) : String :=
  "portal-backups/" ++ portalName ++ "-" ++ ts

/-- Contents of the backup directory written by `createBackup`: a full copy
of the portal entries plus the `.backup-info.json` sidecar recording the
source path and backup time. -/
def createBackupEntries (portalName ts : String) (es : List (String × FSTree)) :
    List (String × FSTree) :=
  setE es ".backup-info.json"
    (.file (.binfo
      { portal := portalName
        backedUpAt := ts
        originalPath := "portals/" ++ portalName
        backupLocation := createBackupDirName portalName ts }))

/-- `removePortal(portalName, force, backup)` of `portal-remove.js`, as a
function of the initial tree at `portals/<name>` and the run
environment. -/
def removePortal (portalName : String) (force backup : Bool)
    (env : RemoveEnv) (portal0 : Option FSTree) : RemoveResult :=
  match portal0 with
  | none => ⟨.notFound, none, none, [], 1⟩
  | some live0 =>
    if !portalReadable live0 then ⟨.notFound, some live0, none, [], 1⟩
    else
      -- step 4: confirmation prompts (skipped entirely under --force)
      let confirmStage : Bool × Bool × List String :=
        if force then (true, backup, [])
        else if !env.answerRemove then (false, backup, ["confirm-remove"])
        else if backup then (true, env.answerBackup, ["confirm-remove", "confirm-backup"])
        else (true, false, ["confirm-remove"])
      match confirmStage with
      | (proceed, backupEff, prompts1) =>
        if !proceed then ⟨.cancelled, some live0, none, prompts1, 0⟩
        else
          -- step 5: create the backup if requested
          let es0 := match live0 with | .dir es => es | .file _ => []
          let backupStage : Option (Option (String × List (String × FSTree)) × List String) :=
            if backupEff then
              if env.backupOk then
                some (some (createBackupDirName portalName env.ts,
                            createBackupEntries portalName env.ts es0), prompts1)
              else if env.answerContinue then
                some (none, prompts1 ++ ["continue-without-backup"])
              else none
            else some (none, prompts1)
          match backupStage with
          | none =>
            ⟨.cancelled, some live0, none, prompts1 ++ ["continue-without-backup"], 0⟩
          | some (bk, prompts2) =>
            -- step 7: rmSync the portal directory
            if env.rmOk then ⟨.removed, none, bk, prompts2, 0⟩
            else ⟨.rmFailed, some live0, bk, prompts2, 1⟩

/-- Parsed command line of `portal-remove.js`. -/
inductive RemoveCmd where
  | help
  | err
  | list
  | interactive
  | remove (portalName : String) (force backup : Bool)
  deriving DecidableEq

/-- `arg.startsWith('-')`: the first character is a dash. -/
def startsWithDash (s : String) : Bool :=
  match s.data with
  | [] => false
  | c :: _ => c == '-'

/-- `parseArgs` of `portal-remove.js`. -/
def parseRemoveArgs (args : List String) : RemoveCmd :=
  if args.isEmpty || args.contains "--help" || args.contains "-h" then .help
  else
    let force := args.contains "--force" || args.contains "-f"
    let noBackup := args.contains "--no-backup" || args.contains "-n"
    let interactive := args.contains "--interactive" || args.contains "-i"
    let portalName := args.foldl
      (fun acc a => if startsWithDash a then acc else a) ""
    if args.contains "--list" || args.contains "-l" then .list
    else if interactive then .interactive
    else if portalName = "" then .err
    else .remove portalName force (!noBackup)

/-! ## The registry cache (`getRegistry` in the add and list scripts) -/

/-- The local registry cache file, once parsed: the registry document
(abstracted to its serialized form) plus the `lastFetched` stamp
(`none` when the field is absent or not a valid date). -/
structure CacheFile where
  doc : String
  lastFetched : Option Nat
  deriving DecidableEq, Repr

/-- State of `portal-registry-cache.json` on disk. -/
inductive CacheState where
  | missing
  | corrupt
  | stored (c : CacheFile)
  deriving DecidableEq, Repr

/-- What `getRegistry` produces. -/
inductive RegOut where
  /-- Returned a registry object: the document, and its `lastFetched` field
  when the returned object is the cache entry. -/
  | ok (doc : String) (lastFetched : Option Nat)
  /-- The `No registry available` error. -/
  | errNoRegistry
  /-- A different exception propagated (a corrupt cache file fails to parse
  again inside the fallback). -/
  | errThrown
  deriving DecidableEq, Repr

/-- One run of `getRegistry`: result, cache file afterwards, and whether a
network fetch of the registry document was attempted. -/
structure RegRun where
  result : RegOut
  cacheAfter : CacheState
  fetchAttempted : Bool
  deriving DecidableEq, Repr

/-- The cache entry counts as fresh exactly when its age is under one hour
(`now - cacheTime < 60 * 60 * 1000` on millisecond clocks). -/
def cacheFresh (c : CacheFile) (now : Nat) : Bool :=
  match c.lastFetched with
  | some t => now - t < 60 * 60 * 1000
  | none => false

/-- The shared `catch` fallback of both `getRegistry` variants: return the
cached registry regardless of age; parsing a corrupt cache throws; with no
cache, fail with the no-registry error. -/
def registryFallback (cache : CacheState) (attempted : Bool) : RegRun :=
  match cache with
  | .stored c => ⟨.ok c.doc c.lastFetched, cache, attempted⟩
  | .corrupt => ⟨.errThrown, cache, attempted⟩
  | .missing => ⟨.errNoRegistry, cache, attempted⟩

/-- `getRegistry(forceRefresh)` of the list script: consult the cache first
(unless forced), fetch on a miss, stamp and rewrite the whole cache file on
success, fall back to the cache on failure.  `configOk` is whether
`.edutechrc` reads and parses; `fetchResult` is the network outcome. -/
def getRegistryList (forceRefresh : Bool) (configOk : Bool)
    (cache : CacheState) (now : Nat) (fetchResult : Option String) : RegRun :=
  if !configOk then registryFallback cache false
  else
    let hit :=
      match cache with
      | .stored c => if !forceRefresh && cacheFresh c now then some c else none
      | _ => none
    match hit with
    | some c => ⟨.ok c.doc c.lastFetched, cache, false⟩
    | none =>
      -- reading a corrupt cache file throws before any fetch (only when the
      -- cache branch was entered at all, i.e. not forced)
      if !forceRefresh && cache = .corrupt then registryFallback cache false
      else
        match fetchResult with
        | some d => ⟨.ok d none, .stored ⟨d, some now⟩, true⟩
        | none => registryFallback cache true

/-- `getRegistry()` of the add script: no freshness check at all — it always
attempts the network fetch and uses the cache only as the failure
fallback. -/
def getRegistryAdd (configOk : Bool) (cache : CacheState) (now : Nat)
    (fetchResult : Option String) : RegRun :=
  if !configOk then registryFallback cache false
  else
    match fetchResult with
    | some d => ⟨.ok d none, .stored ⟨d, some now⟩, true⟩
    | none => registryFallback cache true

/-! ## The workspace manifest editor (root `package.json`) -/

/-- The root `package.json`: the `workspaces` array (`none` when the field
is absent) and all unrelated content, kept opaque. -/
structure PkgManifest where
  workspaces : Option (List String)
  rest : String
  deriving DecidableEq, Repr

/-- Step 8 of `addPortal`: insert `portals/<name>` into the `workspaces`
array unless already present (creating the array if absent). -/
def addToWorkspaces (pkg : PkgManifest) (p : String) : PkgManifest :=
  let ws := pkg.workspaces.getD []
  if ws.contains p then pkg
  else { pkg with workspaces := some (ws ++ [p]) }

/-- `removeFromWorkspaces` of `portal-remove.js`: splice out the entry at
`indexOf` when present; otherwise the file is not rewritten. -/
def removeFromWorkspaces (pkg : PkgManifest) (p : String) : PkgManifest :=
  match pkg.workspaces with
  | some ws => if ws.contains p then { pkg with workspaces := some (ws.erase p) } else pkg
  | none => pkg

/-! ## The process-manager manifest editor (`ecosystem.config.js`) -/

/-- One app descriptor of the `apps` array. `port` is `env?.PORT`
(`none` when the `env` object or the `PORT` field is absent). -/
structure EcoApp where
  appName : String
  cwd : String
  script : String
  args : String
  port : Option Nat
  nodeEnv : String
  deriving DecidableEq, Repr

/-- Step 9 of `addPortal`: the next port.  The code starts from 3000 and
uses `apps[apps.length - 1].env?.PORT`: the PORT of the *last* descriptor
(when it exists and is truthy) plus one. -/
def nextPort (apps : List EcoApp) : Nat :=
  match apps.getLast? with
  | none => 3000
  | some a =>
    match a.port with
    | some p => if p = 0 then 3000 else p + 1
    | none => 3000

/-- Step 9 of `addPortal`: append the new app descriptor with the computed
port. -/
def addToEcosystem (apps : List EcoApp) (portalName : String) : List EcoApp :=
  apps ++ [{ appName := portalName ++ "-portal"
             cwd := "./portals/" ++ portalName
             script := "npm"
             args := "run dev"
             port := some (nextPort apps)
             nodeEnv := "development" }]

/-- Modelled from the spec (for comparison with `nextPort`): "one more than
the maximum port found among existing descriptors, or 3000 if none
exist". -/
def specMaxPort (apps : List EcoApp) : Nat :=
  match apps with
  | [] => 3000
  | _ => (apps.filterMap (·.port)).foldl max 0 + 1

/-! ## Lemmas about directory entry lists -/

theorem lookupE_setE_self (es : List (String × FSTree)) (n : String) (v : FSTree) :
    lookupE (setE es n v) n = some v := by
  induction es with
  | nil => simp [setE, lookupE]
  | cons e rest ih =>
    obtain ⟨m, t⟩ := e
    by_cases h : m = n <;> simp [setE, lookupE, h, ih]

theorem lookupE_setE_other (es : List (String × FSTree)) (n m : String) (v : FSTree)
    (h : m ≠ n) : lookupE (setE es n v) m = lookupE es m := by
  induction es with
  | nil =>
    have hnm : ¬(n = m) := fun h' => h h'.symm
    simp [setE, lookupE, hnm]
  | cons e rest ih =>
    obtain ⟨k, t⟩ := e
    have hnm : ¬(n = m) := fun h' => h h'.symm
    by_cases hk : k = n
    · have hkm : ¬(k = m) := fun h' => h (h'.symm.trans hk)
      simp [setE, lookupE, hk, hkm, hnm]
    · by_cases hm : k = m <;> simp [setE, lookupE, hk, hm, ih, h]

theorem lookupE_eq_none_of_not_mem {es : List (String × FSTree)} {m : String}
    (h : m ∉ keys es) : lookupE es m = none := by
  induction es with
  | nil => rfl
  | cons e rest ih =>
    obtain ⟨k, t⟩ := e
    simp only [keys, List.map_cons, List.mem_cons] at h
    push_neg at h
    have hkm : ¬(k = m) := fun h' => h.1 h'.symm
    simp [lookupE, hkm, ih (by simpa [keys] using h.2)]

theorem nodupB_cons {x : String} {xs : List String} (h : nodupB (x :: xs) = true) :
    x ∉ xs ∧ nodupB xs = true := by
  simp only [nodupB, Bool.and_eq_true, Bool.not_eq_true'] at h
  exact ⟨by simpa using h.1, h.2⟩

theorem wfT_dir_iff {es : List (String × FSTree)} :
    wfT (.dir es) = true ↔ nodupB (keys es) = true ∧ wfL es = true := by
  simp [wfT, Bool.and_eq_true]

theorem wfL_lookup {es : List (String × FSTree)} {m : String} {t : FSTree}
    (hwf : wfL es = true) (h : lookupE es m = some t) : wfT t = true := by
  induction es with
  | nil => simp [lookupE] at h
  | cons e rest ih =>
    obtain ⟨k, v⟩ := e
    simp only [wfL, Bool.and_eq_true] at hwf
    by_cases hk : k = m
    · simp only [lookupE, if_pos hk] at h
      cases h; exact hwf.1
    · simp only [lookupE, if_neg hk] at h
      exact ih hwf.2 h

theorem allCfgFiles_lookup {es : List (String × FSTree)} {m : String} {t : FSTree}
    (hall : allCfgFiles es = true) (h : lookupE es m = some t) :
    m = ".portal-config.json" ∧ isFile t = true := by
  induction es with
  | nil => simp [lookupE] at h
  | cons e rest ih =>
    obtain ⟨k, v⟩ := e
    simp only [allCfgFiles, List.all_cons, Bool.and_eq_true] at hall
    by_cases hk : k = m
    · simp only [lookupE, if_pos hk] at h
      cases h
      refine ⟨?_, hall.1.2⟩
      have := hall.1.1
      simp only [decide_eq_true_eq] at this
      exact hk ▸ this
    · simp only [lookupE, if_neg hk] at h
      exact ih (by simpa [allCfgFiles] using hall.2) h

theorem getPath_dir_nil_ne {p : List String} (hp : p ≠ []) :
    getPath (.dir []) p = none := by
  cases p with
  | nil => exact absurd rfl hp
  | cons n p' => simp [getPath, lookupE]

theorem getPath_file_ne {c : FileContent} {p : List String} (hp : p ≠ []) :
    getPath (.file c) p = none := by
  cases p with
  | nil => exact absurd rfl hp
  | cons n p' => rfl

/-! ## Lemmas about `mergeEntry` and `mergeDirectories` -/

theorem mergeEntry_lookup_other {tes tes1 : List (String × FSTree)} {n : String}
    {se : FSTree} (h : mergeEntry tes n se = some tes1) {m : String} (hm : m ≠ n) :
    lookupE tes1 m = lookupE tes m := by
  cases se with
  | file c =>
    simp only [mergeEntry] at h
    split at h
    · cases h; rfl
    · split at h
      · exact absurd h (by simp)
      · cases h; exact lookupE_setE_other _ _ _ _ hm
  | dir subSes =>
    simp only [mergeEntry] at h
    split at h
    · rw [Option.map_eq_some'] at h
      obtain ⟨mo, _, rfl⟩ := h
      exact lookupE_setE_other _ _ _ _ hm
    · split at h
      · cases h; rfl
      · exact absurd h (by simp)
    · rw [Option.map_eq_some'] at h
      obtain ⟨mo, _, rfl⟩ := h
      exact lookupE_setE_other _ _ _ _ hm

theorem mergeEntry_file_self {tes tes1 : List (String × FSTree)} {n : String}
    {c : FileContent} (h : mergeEntry tes n (.file c) = some tes1)
    (hn : n ≠ ".portal-config.json") :
    lookupE tes1 n = some (.file c) ∧ ∀ d, lookupE tes n ≠ some (.dir d) := by
  simp only [mergeEntry, if_neg hn] at h
  split at h
  · exact absurd h (by simp)
  · rename_i hnotdir
    cases h
    refine ⟨lookupE_setE_self _ _ _, fun d hd => ?_⟩
    exact hnotdir d hd

theorem mergeEntry_cfg_self {tes tes1 : List (String × FSTree)} {c : FileContent}
    (h : mergeEntry tes ".portal-config.json" (.file c) = some tes1) : tes1 = tes := by
  simp [mergeEntry] at h
  first
  | exact h
  | exact h.symm

theorem mergeEntry_dir_self {tes tes1 : List (String × FSTree)} {n : String}
    {subSes : List (String × FSTree)} (h : mergeEntry tes n (.dir subSes) = some tes1) :
    (∃ c0, lookupE tes n = some (.file c0) ∧ tes1 = tes ∧ allCfgFiles subSes = true)
    ∨ (∃ subTes mo, lookupE tes n = some (.dir subTes) ∧
        mergeDirectories subSes subTes = some mo ∧ tes1 = setE tes n (.dir mo))
    ∨ (lookupE tes n = none ∧ ∃ mo, mergeDirectories subSes [] = some mo ∧
        tes1 = setE tes n (.dir mo)) := by
  simp only [mergeEntry] at h
  split at h
  · rename_i subTes hl
    rw [Option.map_eq_some'] at h
    obtain ⟨mo, hmo, rfl⟩ := h
    exact Or.inr (Or.inl ⟨subTes, mo, hl, hmo, rfl⟩)
  · rename_i c0 hl
    split at h
    · rename_i hall
      cases h
      exact Or.inl ⟨c0, hl, rfl, hall⟩
    · exact absurd h (by simp)
  · rename_i hl
    rw [Option.map_eq_some'] at h
    obtain ⟨mo, hmo, rfl⟩ := h
    exact Or.inr (Or.inr ⟨hl, mo, hmo, rfl⟩)

theorem mergeDirs_lookup_none {m : String} :
    ∀ {ses tes out : List (String × FSTree)},
      mergeDirectories ses tes = some out → lookupE ses m = none →
      lookupE out m = lookupE tes m := by
  intro ses
  induction ses with
  | nil =>
    intro tes out h _
    simp only [mergeDirectories] at h
    cases h; rfl
  | cons e rest ih =>
    obtain ⟨n, se⟩ := e
    intro tes out h hm
    simp only [mergeDirectories] at h
    cases hstep : mergeEntry tes n se with
    | none => rw [hstep] at h; exact absurd h (by simp)
    | some tes1 =>
      rw [hstep] at h
      by_cases hnm : n = m
      · simp [lookupE, hnm] at hm
      · have hrest : lookupE rest m = none := by simpa [lookupE, hnm] using hm
        exact (ih h hrest).trans (mergeEntry_lookup_other hstep fun e => hnm e.symm)

theorem mergeDirs_lookup_file {m : String} {c : FileContent}
    (hmc : m ≠ ".portal-config.json") :
    ∀ {ses tes out : List (String × FSTree)},
      mergeDirectories ses tes = some out → nodupB (keys ses) = true →
      lookupE ses m = some (.file c) →
      lookupE out m = some (.file c) ∧ ∀ d, lookupE tes m ≠ some (.dir d) := by
  intro ses
  induction ses with
  | nil => intro tes out _ _ hm; simp [lookupE] at hm
  | cons e rest ih =>
    obtain ⟨n, se⟩ := e
    intro tes out h hnd hm
    have hnd' := nodupB_cons (by simpa [keys] using hnd)
    simp only [mergeDirectories] at h
    cases hstep : mergeEntry tes n se with
    | none => rw [hstep] at h; exact absurd h (by simp)
    | some tes1 =>
      rw [hstep] at h
      by_cases hnm : n = m
      · subst hnm
        have hse : se = .file c := by simpa [lookupE] using hm
        subst hse
        obtain ⟨h1, h2⟩ := mergeEntry_file_self hstep hmc
        have hrest : lookupE rest n = none :=
          lookupE_eq_none_of_not_mem hnd'.1
        rw [mergeDirs_lookup_none h hrest]
        exact ⟨h1, h2⟩
      · have hm' : lookupE rest m = some (.file c) := by
          simpa [lookupE, hnm] using hm
        obtain ⟨h1, h2⟩ := ih h hnd'.2 hm'
        have htrans := mergeEntry_lookup_other hstep (fun e => hnm e.symm)
        exact ⟨h1, fun d hd => h2 d (htrans.trans hd)⟩

theorem mergeDirs_lookup_cfg {c : FileContent} :
    ∀ {ses tes out : List (String × FSTree)},
      mergeDirectories ses tes = some out → nodupB (keys ses) = true →
      lookupE ses ".portal-config.json" = some (.file c) →
      lookupE out ".portal-config.json" = lookupE tes ".portal-config.json" := by
  intro ses
  induction ses with
  | nil => intro tes out _ _ hm; simp [lookupE] at hm
  | cons e rest ih =>
    obtain ⟨n, se⟩ := e
    intro tes out h hnd hm
    have hnd' := nodupB_cons (by simpa [keys] using hnd)
    simp only [mergeDirectories] at h
    cases hstep : mergeEntry tes n se with
    | none => rw [hstep] at h; exact absurd h (by simp)
    | some tes1 =>
      rw [hstep] at h
      by_cases hnm : n = ".portal-config.json"
      · subst hnm
        have hse : se = .file c := by simpa [lookupE] using hm
        subst hse
        have heq := mergeEntry_cfg_self hstep
        subst heq
        have hrest : lookupE rest ".portal-config.json" = none :=
          lookupE_eq_none_of_not_mem hnd'.1
        exact mergeDirs_lookup_none h hrest
      · have hm' : lookupE rest ".portal-config.json" = some (.file c) := by
          simpa [lookupE, hnm] using hm
        exact (ih h hnd'.2 hm').trans
          (mergeEntry_lookup_other hstep fun e => hnm e.symm)

theorem mergeDirs_lookup_dir {m : String} {subSes : List (String × FSTree)} :
    ∀ {ses tes out : List (String × FSTree)},
      mergeDirectories ses tes = some out → nodupB (keys ses) = true →
      lookupE ses m = some (.dir subSes) →
      (∃ c0, lookupE tes m = some (.file c0) ∧ lookupE out m = some (.file c0) ∧
        allCfgFiles subSes = true)
      ∨ (∃ subTes mo, lookupE tes m = some (.dir subTes) ∧
          mergeDirectories subSes subTes = some mo ∧ lookupE out m = some (.dir mo))
      ∨ (lookupE tes m = none ∧ ∃ mo, mergeDirectories subSes [] = some mo ∧
          lookupE out m = some (.dir mo)) := by
  intro ses
  induction ses with
  | nil => intro tes out _ _ hm; simp [lookupE] at hm
  | cons e rest ih =>
    obtain ⟨n, se⟩ := e
    intro tes out h hnd hm
    have hnd' := nodupB_cons (by simpa [keys] using hnd)
    simp only [mergeDirectories] at h
    cases hstep : mergeEntry tes n se with
    | none => rw [hstep] at h; exact absurd h (by simp)
    | some tes1 =>
      rw [hstep] at h
      by_cases hnm : n = m
      · subst hnm
        have hse : se = .dir subSes := by simpa [lookupE] using hm
        subst hse
        have hout : lookupE out n = lookupE tes1 n :=
          mergeDirs_lookup_none h (lookupE_eq_none_of_not_mem hnd'.1)
        rcases mergeEntry_dir_self hstep with
          ⟨c0, hl, rfl, hall⟩ | ⟨subTes, mo, hl, hmo, rfl⟩ | ⟨hl, mo, hmo, rfl⟩
        · exact Or.inl ⟨c0, hl, hout.trans hl, hall⟩
        · exact Or.inr (Or.inl ⟨subTes, mo, hl, hmo,
            hout.trans (lookupE_setE_self _ _ _)⟩)
        · exact Or.inr (Or.inr ⟨hl, mo, hmo,
            hout.trans (lookupE_setE_self _ _ _)⟩)
      · have hm' : lookupE rest m = some (.dir subSes) := by
          simpa [lookupE, hnm] using hm
        have htrans := mergeEntry_lookup_other hstep (fun e => hnm e.symm)
        rcases ih h hnd'.2 hm' with
          ⟨c0, hl, hout, hall⟩ | ⟨subTes, mo, hl, hmo, hout⟩ | ⟨hl, mo, hmo, hout⟩
        · exact Or.inl ⟨c0, htrans ▸ hl, hout, hall⟩
        · exact Or.inr (Or.inl ⟨subTes, mo, htrans ▸ hl, hmo, hout⟩)
        · exact Or.inr (Or.inr ⟨htrans ▸ hl, mo, hmo, hout⟩)

/-! ## Path-level behaviour of the merge -/

theorem merge_getPath_file :
    ∀ (p : List String) {ses tes out : List (String × FSTree)},
      mergeDirectories ses tes = some out → wfT (.dir ses) = true →
      ∀ {c : FileContent}, getPath (.dir ses) p = some (.file c) →
      p.getLast? ≠ some ".portal-config.json" →
      getPath (.dir out) p = some (.file c) := by
  intro p
  induction p with
  | nil =>
    intro ses tes out _ _ c hp _
    simp [getPath] at hp
  | cons m p' ih =>
    intro ses tes out h hwf c hp hlast
    obtain ⟨hnd, hwfl⟩ := wfT_dir_iff.mp hwf
    cases hl : lookupE ses m with
    | none => simp [getPath, hl] at hp
    | some t =>
      have hp' : getPath t p' = some (.file c) := by simpa [getPath, hl] using hp
      cases t with
      | file c0 =>
        cases p' with
        | cons b l => simp [getPath] at hp'
        | nil =>
          have hc : c0 = c := by simpa [getPath] using hp'
          subst hc
          have hm : m ≠ ".portal-config.json" := by
            simpa [List.getLast?] using hlast
          obtain ⟨h1, _⟩ := mergeDirs_lookup_file hm h hnd hl
          simp [getPath, h1]
      | dir subSes =>
        have hp'ne : p' ≠ [] := by
          intro e; subst e; simp [getPath] at hp'
        have hwfsub : wfT (.dir subSes) = true := wfL_lookup hwfl hl
        have hlast' : p'.getLast? ≠ some ".portal-config.json" := by
          cases p' with
          | nil => exact absurd rfl hp'ne
          | cons b l => simpa [List.getLast?_cons_cons] using hlast
        rcases mergeDirs_lookup_dir h hnd hl with
          ⟨c0, hltes, hlout, hall⟩ | ⟨subTes, mo, hltes, hmo, hlout⟩ |
          ⟨hltes, mo, hmo, hlout⟩
        · exfalso
          cases p' with
          | nil => exact hp'ne rfl
          | cons m2 p'' =>
            cases hl2 : lookupE subSes m2 with
            | none => simp [getPath, hl2] at hp'
            | some t2 =>
              obtain ⟨hm2, hf2⟩ := allCfgFiles_lookup hall hl2
              cases t2 with
              | dir d2 => simp [isFile] at hf2
              | file c2 =>
                cases p'' with
                | cons b2 l2 => simp [getPath, hl2] at hp'
                | nil => exact hlast' (by simp [List.getLast?, hm2])
        · have hrec := ih hmo hwfsub hp' hlast'
          simp [getPath, hlout, hrec]
        · have hrec := ih hmo hwfsub hp' hlast'
          simp [getPath, hlout, hrec]

theorem merge_getPath_absent :
    ∀ (p : List String) {ses tes out : List (String × FSTree)},
      mergeDirectories ses tes = some out → wfT (.dir ses) = true →
      p ≠ [] → getPath (.dir ses) p = none →
      getPath (.dir out) p = getPath (.dir tes) p := by
  intro p
  induction p with
  | nil => intro ses tes out _ _ hne _; exact absurd rfl hne
  | cons m p' ih =>
    intro ses tes out h hwf _ hp
    obtain ⟨hnd, hwfl⟩ := wfT_dir_iff.mp hwf
    cases hl : lookupE ses m with
    | none =>
      simp only [getPath, mergeDirs_lookup_none h hl]
    | some t =>
      have hp' : getPath t p' = none := by simpa [getPath, hl] using hp
      cases t with
      | file c0 =>
        have hp'ne : p' ≠ [] := by
          intro e; subst e; simp [getPath] at hp'
        by_cases hm : m = ".portal-config.json"
        · subst hm
          simp only [getPath, mergeDirs_lookup_cfg h hnd hl]
        · obtain ⟨h1, h2⟩ := mergeDirs_lookup_file hm h hnd hl
          have hLHS : getPath (.dir out) (m :: p') = none := by
            simp [getPath, h1, getPath_file_ne hp'ne]
          have hRHS : getPath (.dir tes) (m :: p') = none := by
            cases hlt : lookupE tes m with
            | none => simp [getPath, hlt]
            | some t' =>
              cases t' with
              | file c1 => simp [getPath, hlt, getPath_file_ne hp'ne]
              | dir d => exact absurd hlt (h2 d)
          rw [hLHS, hRHS]
      | dir subSes =>
        have hp'ne : p' ≠ [] := by
          intro e; subst e; simp [getPath] at hp'
        have hwfsub : wfT (.dir subSes) = true := wfL_lookup hwfl hl
        rcases mergeDirs_lookup_dir h hnd hl with
          ⟨c0, hltes, hlout, hall⟩ | ⟨subTes, mo, hltes, hmo, hlout⟩ |
          ⟨hltes, mo, hmo, hlout⟩
        · simp [getPath, hlout, hltes]
        · have hrec := ih hmo hwfsub hp'ne hp'
          simp [getPath, hlout, hltes, hrec]
        · have hrec := ih hmo hwfsub hp'ne hp'
          simp [getPath, hlout, hltes, hrec, getPath_dir_nil_ne hp'ne]

theorem merge_getPath_cfg :
    ∀ (p : List String) {ses tes out : List (String × FSTree)},
      mergeDirectories ses tes = some out → wfT (.dir ses) = true →
      ∀ {c : FileContent}, getPath (.dir ses) p = some (.file c) →
      p.getLast? = some ".portal-config.json" →
      getPath (.dir out) p = getPath (.dir tes) p := by
  intro p
  induction p with
  | nil =>
    intro ses tes out _ _ c hp _
    simp [getPath] at hp
  | cons m p' ih =>
    intro ses tes out h hwf c hp hlast
    obtain ⟨hnd, hwfl⟩ := wfT_dir_iff.mp hwf
    cases hl : lookupE ses m with
    | none => simp [getPath, hl] at hp
    | some t =>
      have hp' : getPath t p' = some (.file c) := by simpa [getPath, hl] using hp
      cases t with
      | file c0 =>
        cases p' with
        | cons b l => simp [getPath] at hp'
        | nil =>
          have hm : m = ".portal-config.json" := by
            simpa [List.getLast?] using hlast
          subst hm
          simp only [getPath, mergeDirs_lookup_cfg h hnd hl]
      | dir subSes =>
        have hp'ne : p' ≠ [] := by
          intro e; subst e; simp [getPath] at hp'
        have hwfsub : wfT (.dir subSes) = true := wfL_lookup hwfl hl
        have hlast' : p'.getLast? = some ".portal-config.json" := by
          cases p' with
          | nil => exact absurd rfl hp'ne
          | cons b l => simpa [List.getLast?_cons_cons] using hlast
        rcases mergeDirs_lookup_dir h hnd hl with
          ⟨c0, hltes, hlout, hall⟩ | ⟨subTes, mo, hltes, hmo, hlout⟩ |
          ⟨hltes, mo, hmo, hlout⟩
        · simp [getPath, hlout, hltes, getPath_file_ne hp'ne]
        · have hrec := ih hmo hwfsub hp' hlast'
          simp [getPath, hlout, hltes, hrec]
        · have hrec := ih hmo hwfsub hp' hlast'
          simp [getPath, hlout, hltes, hrec, getPath_dir_nil_ne hp'ne]

/-! ## Claim C4 -/

/-- C4: for every non-force update that reaches the merge step and in which
the merge completes, the merge copies every file from the fresh snapshot
(`ses`) into the live portal directory (`tes`), overwriting same-path
files, except any file named `.portal-config.json`, which is skipped (the
live tree's entry at that path is untouched); and any path absent from the
snapshot keeps exactly its previous content, so nothing that exists only in
the live tree is deleted or modified. -/
theorem C4_merge_copies_and_preserves
    {ses tes out : List (String × FSTree)}
    (h : mergeDirectories ses tes = some out) (hwf : wfT (.dir ses) = true) :
    (∀ p c, getPath (.dir ses) p = some (.file c) →
      p.getLast? ≠ some ".portal-config.json" →
      getPath (.dir out) p = some (.file c))
    ∧ (∀ p, p ≠ [] → getPath (.dir ses) p = none →
      getPath (.dir out) p = getPath (.dir tes) p)
    ∧ (∀ p c, getPath (.dir ses) p = some (.file c) →
      p.getLast? = some ".portal-config.json" →
      getPath (.dir out) p = getPath (.dir tes) p) :=
  ⟨fun p _ hp hl => merge_getPath_file p h hwf hp hl,
   fun p hne hp => merge_getPath_absent p h hwf hne hp,
   fun p _ hp hl => merge_getPath_cfg p h hwf hp hl⟩

/-- A sample fetched snapshot: a nested updated file, a metadata file and a
new top-level file. -/
def sampleSnap : List (String × FSTree) :=
  [("app", .dir [("page.js", .file (.raw "v2"))]),
   (".portal-config.json", .file (.meta { version := some "2.0.0" })),
   ("lib.js", .file (.raw "new"))]

/-- A sample live portal: the same nested file at an older version, a local
file the snapshot does not know, and the live metadata file. -/
def sampleLive : List (String × FSTree) :=
  [("app", .dir [("page.js", .file (.raw "v1")), ("local.js", .file (.raw "mine"))]),
   (".portal-config.json", .file (.meta { version := some "1.0.0" }))]

/-- C4 witness: on the sample trees the merge succeeds; the snapshot file
is copied at its nested path, the live-only file survives unchanged, and
the live metadata file is untouched. -/
theorem C4_witness :
    ∃ out, mergeDirectories sampleSnap sampleLive = some out
      ∧ getPath (.dir out) ["app", "page.js"] = some (.file (.raw "v2"))
      ∧ getPath (.dir out) ["app", "local.js"] = some (.file (.raw "mine"))
      ∧ getPath (.dir out) [".portal-config.json"]
          = some (.file (.meta { version := some "1.0.0" })) := by
  have h : mergeDirectories sampleSnap sampleLive =
      some [("app", .dir [("page.js", .file (.raw "v2")), ("local.js", .file (.raw "mine"))]),
            (".portal-config.json", .file (.meta { version := some "1.0.0" })),
            ("lib.js", .file (.raw "new"))] := by
    simp [sampleSnap, sampleLive, mergeDirectories, mergeEntry, lookupE, setE]
  have hwf : wfT (.dir sampleSnap) = true := by
    simp [sampleSnap, wfT, wfL, nodupB, keys]
  obtain ⟨h1, h2, h3⟩ := C4_merge_copies_and_preserves h hwf
  refine ⟨_, h, ?_, ?_, ?_⟩
  · exact h1 ["app", "page.js"] (.raw "v2") (by simp [sampleSnap, getPath, lookupE]) (by simp)
  · have := h2 ["app", "local.js"] (by simp) (by simp [sampleSnap, getPath, lookupE])
    rw [this]
    simp [sampleLive, getPath, lookupE]
  · have := h3 [".portal-config.json"] (.meta { version := some "2.0.0" })
      (by simp [sampleSnap, getPath, lookupE]) (by simp)
    rw [this]
    simp [sampleLive, getPath, lookupE]

/-! ## Claims C1, C5, C9 -/

/-- Any successful run of steps 4 to 8 ends with the live tree equal to the
merged (or replacing) entries with the rewritten metadata file inside. -/
theorem updateBody_success_shape {force : Bool} {env : UpdateEnv}
    {cfg : PortalConfig} {bname : String} {es0 : List (String × FSTree)}
    {liveF : FSTree} (h : updateBody force env cfg bname es0 = some liveF) :
    ∃ live1, liveF = .dir (setE live1 ".portal-config.json"
      (.file (.meta { cfg with
        updatedAt := some env.nowIso
        previousVersion := cfg.version
        backupLocation := some bname }))) := by
  simp only [updateBody] at h
  repeat' split at h
  all_goals
    first
    | exact ⟨_, (Option.some.inj h).symm⟩
    | exact ⟨_, h.symm⟩
    | simp at h

/-- C1: whenever `updatePortal` gets past the backup step (metadata present
and parseable, not blocked by uncommitted changes — so the backup is
created) and any fatal error then occurs in the guarded fetch, merge or
replace, metadata write or dependency check region, the catch handler
deletes the partial live directory, renames the pre-update backup back into
the portal path and exits non-zero: the final portal tree is exactly the
pre-update tree, and the backup directory no longer remains beside it. -/
theorem C1_update_rollback (portalName : String) (force : Bool)
    (env : UpdateEnv) (es0 : List (String × FSTree)) (cfg : PortalConfig)
    (hcfg : getPortalConfig es0 = some cfg)
    (hgit : blockedByGit env.gitChanges force = false)
    (herr : updateBody force env cfg (backupPortalDirName portalName env.now) es0 = none) :
    updatePortal portalName force env (some (.dir es0)) =
      ⟨1, some (.dir es0), true, none⟩ := by
  simp [updatePortal, hcfg, hgit, herr, backupPortalTree]

/-- C1 witness: a portal with metadata, no git checkout, and a failing
`degit` fetch: the update exits 1 with the portal tree unchanged. -/
theorem C1_witness :
    updatePortal "cbt" false ⟨none, none, 5, "T"⟩
        (some (.dir [(".portal-config.json", .file (.meta { version := some "1.0.0" }))]))
      = ⟨1, some (.dir [(".portal-config.json", .file (.meta { version := some "1.0.0" }))]),
          true, none⟩ :=
  C1_update_rollback "cbt" false ⟨none, none, 5, "T"⟩
    [(".portal-config.json", .file (.meta { version := some "1.0.0" }))]
    { version := some "1.0.0" } rfl rfl rfl

/-- C5: a non-force update of a portal that is a git checkout with at least
one uncommitted change exits non-zero at step 2: no backup is ever created
and the portal tree is untouched. -/
theorem C5_update_uncommitted_no_mutation (portalName : String)
    (env : UpdateEnv) (es0 : List (String × FSTree)) (cfg : PortalConfig)
    (n : Nat) (hcfg : getPortalConfig es0 = some cfg)
    (hgit : env.gitChanges = some n) (hn : n ≠ 0) :
    updatePortal portalName false env (some (.dir es0)) =
      ⟨1, some (.dir es0), false, none⟩ := by
  have hb : blockedByGit env.gitChanges false = true := by
    simp [blockedByGit, hgit, hn]
  simp [updatePortal, hcfg, hb]

/-- C5 witness: three uncommitted changes, no force: exit 1, nothing
created, nothing mutated. -/
theorem C5_witness :
    updatePortal "cbt" false ⟨some 3, some [("index.js", .file (.raw "x"))], 5, "T"⟩
        (some (.dir [(".portal-config.json", .file (.meta { version := some "1.0.0" }))]))
      = ⟨1, some (.dir [(".portal-config.json", .file (.meta { version := some "1.0.0" }))]),
          false, none⟩ :=
  C5_update_uncommitted_no_mutation "cbt"
    ⟨some 3, some [("index.js", .file (.raw "x"))], 5, "T"⟩
    [(".portal-config.json", .file (.meta { version := some "1.0.0" }))]
    { version := some "1.0.0" } 3 rfl rfl (by decide)

/-- C9: every successful `updatePortal` (force or not) rewrites the
metadata file with the spread of the pre-update config: its `version`
field equals the pre-update version and therefore equals the
`previousVersion` field written beside it; the fetched snapshot's version
is never written into `version`. -/
theorem C9_update_preserves_version (portalName : String) (force : Bool)
    (env : UpdateEnv) (es0 : List (String × FSTree)) (cfg : PortalConfig)
    (hcfg : getPortalConfig es0 = some cfg)
    (hok : (updatePortal portalName force env (some (.dir es0))).exitCode = 0) :
    ∃ esF c', (updatePortal portalName force env (some (.dir es0))).portal
        = some (.dir esF)
      ∧ lookupE esF ".portal-config.json" = some (.file (.meta c'))
      ∧ c'.version = cfg.version ∧ c'.previousVersion = cfg.version := by
  cases hb : blockedByGit env.gitChanges force with
  | true => simp [updatePortal, hcfg, hb] at hok
  | false =>
    cases hbody : updateBody force env cfg
        (backupPortalDirName portalName env.now) es0 with
    | none => simp [updatePortal, hcfg, hb, hbody] at hok
    | some liveF =>
      obtain ⟨live1, rfl⟩ := updateBody_success_shape hbody
      refine ⟨setE live1 ".portal-config.json"
          (.file (.meta { cfg with
            updatedAt := some env.nowIso
            previousVersion := cfg.version
            backupLocation := some (backupPortalDirName portalName env.now) })),
        { cfg with
          updatedAt := some env.nowIso
          previousVersion := cfg.version
          backupLocation := some (backupPortalDirName portalName env.now) },
        ?_, lookupE_setE_self _ _ _, rfl, rfl⟩
      simp [updatePortal, hcfg, hb, hbody]

/-- C9 witness: a successful force update; the rewritten metadata keeps
version `1.0.0` and records it as `previousVersion`. -/
theorem C9_witness :
    getPortalConfig [(".portal-config.json", .file (.meta { version := some "1.0.0" }))]
        = some { version := some "1.0.0" }
    ∧ (updatePortal "cbt" true ⟨none, some [("index.js", .file (.raw "x"))], 5, "T"⟩
        (some (.dir [(".portal-config.json", .file (.meta { version := some "1.0.0" }))]))).exitCode = 0
    ∧ ∃ esF c',
        (updatePortal "cbt" true ⟨none, some [("index.js", .file (.raw "x"))], 5, "T"⟩
          (some (.dir [(".portal-config.json", .file (.meta { version := some "1.0.0" }))]))).portal
            = some (.dir esF)
        ∧ lookupE esF ".portal-config.json" = some (.file (.meta c'))
        ∧ c'.version = ({ version := some "1.0.0" } : PortalConfig).version
        ∧ c'.previousVersion = ({ version := some "1.0.0" } : PortalConfig).version :=
  ⟨rfl, rfl,
   C9_update_preserves_version "cbt" true ⟨none, some [("index.js", .file (.raw "x"))], 5, "T"⟩
     [(".portal-config.json", .file (.meta { version := some "1.0.0" }))]
     { version := some "1.0.0" } rfl rfl⟩

/-! ## Claims C3 and C10 -/

/-- C3 counterexample: `removePortal` with `backup = true` can delete the
portal directory with no backup ever created: when `createBackup` fails and
the operator answers yes to `Continue without backup?`, the directory is
removed although `backupCreated` is `none`.  This refutes the claim that
with `backup = true` the directory is never deleted unless a backup was
first successfully created. -/
theorem C3_counterexample :
    (removePortal "cbt" true true ⟨none, true, true, true, false, true, "TS"⟩
        (some (.dir [(".portal-config.json", .file (.meta {}))]))).outcome
      = .removed
    ∧ (removePortal "cbt" true true ⟨none, true, true, true, false, true, "TS"⟩
        (some (.dir [(".portal-config.json", .file (.meta {}))]))).portal = none
    ∧ (removePortal "cbt" true true ⟨none, true, true, true, false, true, "TS"⟩
        (some (.dir [(".portal-config.json", .file (.meta {}))]))).backupCreated
      = none :=
  ⟨rfl, rfl, rfl⟩

/-- C3 amended: with `backup = true` the portal directory is deleted only
if a backup directory was first successfully created (and then it contains
at least the sidecar record, hence is non-empty), or the operator
explicitly opted out: either by declining the backup confirmation, or by
confirming `Continue without backup?` after a failed backup (default
deny). -/
theorem C3_remove_needs_backup_or_consent (portalName : String)
    (force : Bool) (env : RemoveEnv) (portal0 : Option FSTree)
    (h : (removePortal portalName force true env portal0).outcome = .removed) :
    (∃ bname bes,
      (removePortal portalName force true env portal0).backupCreated
          = some (bname, bes)
      ∧ lookupE bes ".backup-info.json" ≠ none)
    ∨ (force = false ∧ env.answerRemove = true ∧ env.answerBackup = false)
    ∨ (env.backupOk = false ∧ env.answerContinue = true) := by
  rcases portal0 with _ | live0
  · simp [removePortal] at h
  by_cases hread : portalReadable live0
  case neg => simp [removePortal, hread] at h
  case pos =>
    by_cases hf : force <;> by_cases h1 : env.answerRemove <;>
      by_cases h2 : env.answerBackup <;> by_cases h3 : env.backupOk <;>
      by_cases h4 : env.answerContinue <;> by_cases h5 : env.rmOk <;>
      simp [removePortal, hread, hf, h1, h2, h3, h4, h5] at h ⊢ <;>
      exact ⟨_, _, ⟨rfl, rfl⟩, by simp [createBackupEntries, lookupE_setE_self]⟩

/-- C3 witness: with a succeeding backup and a succeeding delete, the
portal is removed and the created backup directory contains the sidecar
record. -/
theorem C3_witness :
    (removePortal "cbt" true true ⟨none, true, true, true, true, true, "TS"⟩
        (some (.dir [(".portal-config.json", .file (.meta {}))]))).outcome
      = .removed
    ∧ ((∃ bname bes,
        (removePortal "cbt" true true ⟨none, true, true, true, true, true, "TS"⟩
            (some (.dir [(".portal-config.json", .file (.meta {}))]))).backupCreated
            = some (bname, bes)
        ∧ lookupE bes ".backup-info.json" ≠ none)
      ∨ (true = false ∧ (⟨none, true, true, true, true, true, "TS"⟩ : RemoveEnv).answerRemove = true
          ∧ (⟨none, true, true, true, true, true, "TS"⟩ : RemoveEnv).answerBackup = false)
      ∨ ((⟨none, true, true, true, true, true, "TS"⟩ : RemoveEnv).backupOk = false
          ∧ (⟨none, true, true, true, true, true, "TS"⟩ : RemoveEnv).answerContinue = true)) :=
  ⟨rfl, C3_remove_needs_backup_or_consent "cbt" true
    ⟨none, true, true, true, true, true, "TS"⟩
    (some (.dir [(".portal-config.json", .file (.meta {}))])) rfl⟩

/-- C10 counterexample: with `--force` and backup enabled, a failing
`createBackup` still triggers the interactive `Continue without backup?`
confirmation, and no backup is created — refuting the claim that under
`force = true, backup = true` no interactive confirmation is ever
requested and a backup is always created. -/
theorem C10_counterexample :
    (removePortal "cbt" true true ⟨some 2, false, false, false, false, true, "TS"⟩
        (some (.dir [(".portal-config.json", .file (.meta {}))]))).prompts
      = ["continue-without-backup"]
    ∧ (removePortal "cbt" true true ⟨some 2, false, false, false, false, true, "TS"⟩
        (some (.dir [(".portal-config.json", .file (.meta {}))]))).backupCreated
      = none :=
  ⟨rfl, rfl⟩

/-- C10 amended: for `removePortal(name, force := true, backup := true)`
(the parameters `parseArgs` produces for `--force` without
`--no-backup`), provided the backup copy succeeds, no interactive
confirmation is requested, a backup is created, and the portal directory
is then deleted, with the uncommitted-changes probe (any `gitChanges`
value in the environment) never blocking. -/
theorem C10_remove_force_silent (portalName : String) (env : RemoveEnv)
    (es0 : List (String × FSTree))
    (hread : portalReadable (.dir es0) = true)
    (hbk : env.backupOk = true) :
    (removePortal portalName true true env (some (.dir es0))).prompts = []
    ∧ (removePortal portalName true true env (some (.dir es0))).backupCreated
        = some (createBackupDirName portalName env.ts,
                createBackupEntries portalName env.ts es0)
    ∧ (env.rmOk = true →
        (removePortal portalName true true env (some (.dir es0))).outcome = .removed
        ∧ (removePortal portalName true true env (some (.dir es0))).portal = none)
    ∧ parseRemoveArgs ["cbt", "--force"] = .remove "cbt" true true := by
  refine ⟨?_, ?_, fun hrm => ⟨?_, ?_⟩, rfl⟩ <;>
    by_cases h5 : env.rmOk <;>
    simp_all [removePortal, hread, hbk]

/-- C10 witness: a concrete silent forced removal with a git checkout
carrying two uncommitted changes. -/
theorem C10_witness :
    portalReadable (.dir [(".portal-config.json", .file (.meta {}))]) = true
    ∧ (removePortal "cbt" true true ⟨some 2, false, false, false, true, true, "TS"⟩
        (some (.dir [(".portal-config.json", .file (.meta {}))]))).prompts = []
    ∧ (removePortal "cbt" true true ⟨some 2, false, false, false, true, true, "TS"⟩
        (some (.dir [(".portal-config.json", .file (.meta {}))]))).backupCreated
        = some (createBackupDirName "cbt" "TS",
                createBackupEntries "cbt" "TS" [(".portal-config.json", .file (.meta {}))])
    ∧ ((⟨some 2, false, false, false, true, true, "TS"⟩ : RemoveEnv).rmOk = true →
        (removePortal "cbt" true true ⟨some 2, false, false, false, true, true, "TS"⟩
          (some (.dir [(".portal-config.json", .file (.meta {}))]))).outcome = .removed
        ∧ (removePortal "cbt" true true ⟨some 2, false, false, false, true, true, "TS"⟩
            (some (.dir [(".portal-config.json", .file (.meta {}))]))).portal = none)
    ∧ parseRemoveArgs ["cbt", "--force"] = .remove "cbt" true true := by
  refine ⟨rfl, ?_⟩
  exact C10_remove_force_silent "cbt" ⟨some 2, false, false, false, true, true, "TS"⟩
    [(".portal-config.json", .file (.meta {}))] rfl rfl

/-! ## Claim C2 -/

/-- C2 counterexample: the add script's `getRegistry` ignores cache
freshness.  With a cache entry only 100 ms old (well under one hour) it
still attempts the network fetch, returns the fetched document instead of
the cached entry, and overwrites the cache — refuting the claim for "every
registry fetch with forceRefresh = false". -/
theorem C2_counterexample :
    cacheFresh ⟨"old", some 100⟩ 200 = true
    ∧ getRegistryAdd true (.stored ⟨"old", some 100⟩) 200 (some "new")
        = ⟨.ok "new" none, .stored ⟨"new", some 200⟩, true⟩
    ∧ (getRegistryAdd true (.stored ⟨"old", some 100⟩) 200 (some "new")).result
        ≠ .ok "old" (some 100)
    ∧ (getRegistryAdd true (.stored ⟨"old", some 100⟩) 200 (some "new")).fetchAttempted
        = true := by
  refine ⟨rfl, rfl, ?_, rfl⟩
  decide

/-- C2 amended: the stated cache contract holds for the list script's
`getRegistry` (the add script's variant always fetches).  With
`forceRefresh = false` and a readable `.edutechrc`: the cached entry is
returned unchanged with no fetch attempted if and only if the cache file
holds an entry whose age is under one hour; with a stale or absent entry a
fetch is attempted, and on fetch success the whole cache file is rewritten
stamped with the current time and the fetched registry is returned. -/
theorem C2_registry_cache_freshness (cache : CacheState) (now : Nat)
    (fetchResult : Option String) :
    ((∃ c, cache = .stored c ∧ cacheFresh c now = true) ↔
      ((getRegistryList false true cache now fetchResult).fetchAttempted = false
        ∧ ∃ c, cache = .stored c
          ∧ (getRegistryList false true cache now fetchResult).result
              = .ok c.doc c.lastFetched
          ∧ (getRegistryList false true cache now fetchResult).cacheAfter = cache))
    ∧ (∀ c, cache = .stored c → cacheFresh c now = false →
        (getRegistryList false true cache now fetchResult).fetchAttempted = true)
    ∧ (cache = .missing →
        (getRegistryList false true cache now fetchResult).fetchAttempted = true)
    ∧ (∀ d, fetchResult = some d →
        (cache = .missing ∨ ∃ c, cache = .stored c ∧ cacheFresh c now = false) →
        getRegistryList false true cache now fetchResult
          = ⟨.ok d none, .stored ⟨d, some now⟩, true⟩) := by
  refine ⟨⟨?_, ?_⟩, ?_, ?_, ?_⟩
  · rintro ⟨c, rfl, hf⟩
    exact ⟨by simp [getRegistryList, hf], c, rfl, by simp [getRegistryList, hf],
      by simp [getRegistryList, hf]⟩
  · rintro ⟨hfa, c, rfl, hres, hca⟩
    refine ⟨c, rfl, ?_⟩
    by_cases hf : cacheFresh c now
    · exact hf
    · exfalso
      rcases hfetch : fetchResult with _ | d <;>
        simp [getRegistryList, hf, hfetch, registryFallback] at hfa
  · rintro c rfl hf
    rcases hfetch : fetchResult with _ | d <;>
      simp [getRegistryList, hf, hfetch, registryFallback]
  · rintro rfl
    rcases hfetch : fetchResult with _ | d <;>
      simp [getRegistryList, hfetch, registryFallback]
  · rintro d rfl hc
    rcases hc with rfl | ⟨c, rfl, hf⟩
    · simp [getRegistryList]
    · simp [getRegistryList, hf]

/-- C2 witness: a fresh cache (age 100 ms) is served without a fetch; a
stale cache (age well over an hour) triggers a fetch whose success
rewrites the cache file stamped with the current time. -/
theorem C2_witness :
    (getRegistryList false true (.stored ⟨"old", some 100⟩) 200 (some "new")).fetchAttempted
        = false
    ∧ getRegistryList false true (.stored ⟨"old", some 100⟩) 5000000 (some "new")
        = ⟨.ok "new" none, .stored ⟨"new", some 5000000⟩, true⟩ := by
  have h1 := ((C2_registry_cache_freshness (.stored ⟨"old", some 100⟩) 200
    (some "new")).1.mp ⟨⟨"old", some 100⟩, rfl, by decide⟩).1
  have h2 := (C2_registry_cache_freshness (.stored ⟨"old", some 100⟩) 5000000
    (some "new")).2.2.2 "new" rfl (Or.inr ⟨⟨"old", some 100⟩, rfl, by decide⟩)
  exact ⟨h1, h2⟩

/-! ## Claim C6 -/

/-- C6: the workspace manifest is edited as a set keyed by the exact path
string: registering twice equals registering once (and yields exactly one
entry when the path was absent), deregistering an absent path is a no-op,
and both operations preserve all unrelated manifest content (the opaque
remainder of the file and every other entry of the list). -/
theorem C6_workspace_set_semantics :
    (∀ pkg p, addToWorkspaces (addToWorkspaces pkg p) p = addToWorkspaces pkg p)
    ∧ (∀ pkg p, (pkg.workspaces.getD []).contains p = false →
        ((addToWorkspaces (addToWorkspaces pkg p) p).workspaces.getD []).count p = 1)
    ∧ (∀ pkg p, (pkg.workspaces.getD []).contains p = false →
        removeFromWorkspaces pkg p = pkg)
    ∧ (∀ pkg p, (addToWorkspaces pkg p).rest = pkg.rest
        ∧ (removeFromWorkspaces pkg p).rest = pkg.rest)
    ∧ (∀ pkg p q, q ≠ p →
        ((addToWorkspaces pkg p).workspaces.getD []).count q
            = (pkg.workspaces.getD []).count q
        ∧ ((removeFromWorkspaces pkg p).workspaces.getD []).count q
            = (pkg.workspaces.getD []).count q) := by
  refine ⟨?_, ?_, ?_, ?_, ?_⟩
  · intro pkg p
    by_cases h : p ∈ pkg.workspaces.getD []
    · simp [addToWorkspaces, h]
    · simp [addToWorkspaces, h]
  · intro pkg p h
    have hmem : p ∉ pkg.workspaces.getD [] := by simpa using h
    simp [addToWorkspaces, hmem, List.count_append,
      List.count_eq_zero.mpr hmem]
  · intro pkg p h
    rcases hw : pkg.workspaces with _ | ws
    · simp [removeFromWorkspaces, hw]
    · have hmem : p ∉ ws := by simpa [hw] using h
      simp [removeFromWorkspaces, hw, hmem]
  · intro pkg p
    constructor
    · by_cases h : p ∈ pkg.workspaces.getD [] <;>
        simp [addToWorkspaces, h]
    · rcases hw : pkg.workspaces with _ | ws
      · simp [removeFromWorkspaces, hw]
      · by_cases h : p ∈ ws <;> simp [removeFromWorkspaces, hw, h]
  · intro pkg p q hq
    constructor
    · by_cases h : p ∈ pkg.workspaces.getD []
      · simp [addToWorkspaces, h]
      · simp [addToWorkspaces, h, List.count_append, List.count_cons, hq]
    · rcases hw : pkg.workspaces with _ | ws
      · simp [removeFromWorkspaces, hw]
      · by_cases h : p ∈ ws
        · simp [removeFromWorkspaces, hw, h, List.count_erase_of_ne hq]
        · simp [removeFromWorkspaces, hw, h]

/-- C6 witness: concrete register and deregister runs on a manifest with
one unrelated entry and an opaque remainder. -/
theorem C6_witness :
    addToWorkspaces (addToWorkspaces ⟨some ["portals/x"], "REST"⟩ "portals/cbt") "portals/cbt"
        = addToWorkspaces ⟨some ["portals/x"], "REST"⟩ "portals/cbt"
    ∧ (((addToWorkspaces (addToWorkspaces ⟨some ["portals/x"], "REST"⟩ "portals/cbt")
          "portals/cbt").workspaces.getD []).count "portals/cbt" = 1)
    ∧ removeFromWorkspaces ⟨some ["portals/x"], "REST"⟩ "portals/cbt"
        = ⟨some ["portals/x"], "REST"⟩
    ∧ (addToWorkspaces ⟨some ["portals/x"], "REST"⟩ "portals/cbt").rest = "REST"
    ∧ (((addToWorkspaces ⟨some ["portals/x"], "REST"⟩ "portals/cbt").workspaces.getD
        []).count "portals/x" = (["portals/x"] : List String).count "portals/x") := by
  obtain ⟨h1, h2, h3, h4, h5⟩ := C6_workspace_set_semantics
  refine ⟨h1 ⟨some ["portals/x"], "REST"⟩ "portals/cbt",
    h2 ⟨some ["portals/x"], "REST"⟩ "portals/cbt" (by decide),
    h3 ⟨some ["portals/x"], "REST"⟩ "portals/cbt" (by decide),
    (h4 ⟨some ["portals/x"], "REST"⟩ "portals/cbt").1,
    ?_⟩
  exact (h5 ⟨some ["portals/x"], "REST"⟩ "portals/cbt" "portals/x" (by decide)).1

/-! ## Claim C7 -/

/-- A sample app descriptor carrying a given port. -/
def portedApp (p : Nat) : EcoApp :=
  ⟨"a-portal", "./portals/a", "npm", "run dev", some p, "development"⟩

/-- C7 counterexample: with existing descriptors whose ports are 3005 and
then 3001, the maximum is 3005, so the claim predicts port 3006; the code
reads only the last descriptor and assigns 3002. -/
theorem C7_counterexample :
    (addToEcosystem [portedApp 3005, portedApp 3001] "cbt").getLast?
        = some ⟨"cbt-portal", "./portals/cbt", "npm", "run dev", some 3002, "development"⟩
    ∧ specMaxPort [portedApp 3005, portedApp 3001] = 3006
    ∧ (3002 : Nat) ≠ 3006 := by
  refine ⟨rfl, by decide, by decide⟩

/-- C7 amended: the port assigned to the appended descriptor is one more
than the PORT of the *last* existing descriptor when that descriptor has a
truthy PORT, and 3000 otherwise — in particular 3000 when the descriptor
list is empty, and also 3000 whenever the last descriptor lacks a PORT,
even if earlier descriptors have ports. -/
theorem C7_next_port_from_last (apps : List EcoApp) (portalName : String) :
    (∀ a p, apps.getLast? = some a → a.port = some p → p ≠ 0 →
      ∃ napp, (addToEcosystem apps portalName).getLast? = some napp
        ∧ napp.appName = portalName ++ "-portal" ∧ napp.port = some (p + 1))
    ∧ (apps = [] →
      ∃ napp, (addToEcosystem apps portalName).getLast? = some napp
        ∧ napp.port = some 3000)
    ∧ (∀ a, apps.getLast? = some a → a.port = none →
      ∃ napp, (addToEcosystem apps portalName).getLast? = some napp
        ∧ napp.port = some 3000) := by
  refine ⟨?_, ?_, ?_⟩
  · intro a p hl hp hp0
    refine ⟨_, List.getLast?_concat _, rfl, ?_⟩
    simp [nextPort, hl, hp, hp0]
  · rintro rfl
    exact ⟨_, List.getLast?_concat _, by simp [nextPort]⟩
  · intro a hl hp
    refine ⟨_, List.getLast?_concat _, ?_⟩
    simp [nextPort, hl, hp]

/-- C7 witness: appending after a last descriptor with port 3001 assigns
3002; appending to an empty list assigns 3000. -/
theorem C7_witness :
    (∃ napp, (addToEcosystem [portedApp 3005, portedApp 3001] "cbt").getLast? = some napp
      ∧ napp.appName = "cbt" ++ "-portal" ∧ napp.port = some (3001 + 1))
    ∧ (∃ napp, (addToEcosystem [] "cbt").getLast? = some napp
      ∧ napp.port = some 3000) :=
  ⟨(C7_next_port_from_last [portedApp 3005, portedApp 3001] "cbt").1
      (portedApp 3001) 3001 rfl rfl (by decide),
   (C7_next_port_from_last [] "cbt").2.1 rfl⟩

/-! ## Claim C8 -/

/-- C8 counterexample: the update script's backup primitive (`backupPortal`)
is not the same primitive as the remove script's: it copies the tree
verbatim — no `.backup-info.json` sidecar is written — and its directory
`backup-<name>-<now>` sits at the top of the working directory, not under
a backups root (its name contains no path separator at all). -/
theorem C8_counterexample :
    backupPortalTree (.dir [("index.js", .file (.raw "x"))])
        = .dir [("index.js", .file (.raw "x"))]
    ∧ lookupE [("index.js", .file (.raw "x"))] ".backup-info.json" = none
    ∧ backupPortalDirName "cbt" 5 = "backup-cbt-5"
    ∧ ((backupPortalDirName "cbt" 5).data.contains '/') = false
    ∧ ((createBackupDirName "cbt" "TS").data.contains '/') = true := by
  refine ⟨rfl, rfl, rfl, by decide, by decide⟩

/-- C8 amended: the remove script's `createBackup` copies the portal tree
in full into `portal-backups/<name>-<timestamp>` and writes the
`.backup-info.json` sidecar recording the source path and backup time,
leaving every other entry of the copy untouched; the update script's
`backupPortal` instead copies the tree verbatim into a top-level
`backup-<name>-<Date.now()>` directory and writes no sidecar. -/
theorem C8_backup_primitives :
    (∀ portalName ts es,
      lookupE (createBackupEntries portalName ts es) ".backup-info.json"
          = some (.file (.binfo
            { portal := portalName
              backedUpAt := ts
              originalPath := "portals/" ++ portalName
              backupLocation := createBackupDirName portalName ts }))
      ∧ ∀ k, k ≠ ".backup-info.json" →
          lookupE (createBackupEntries portalName ts es) k = lookupE es k)
    ∧ (∀ portalName ts, createBackupDirName portalName ts
        = "portal-backups/" ++ portalName ++ "-" ++ ts)
    ∧ (∀ t, backupPortalTree t = t)
    ∧ (∀ portalName now, backupPortalDirName portalName now
        = "backup-" ++ portalName ++ "-" ++ toString now) := by
  refine ⟨fun portalName ts es => ⟨lookupE_setE_self _ _ _, fun k hk =>
    lookupE_setE_other _ _ _ _ hk⟩, fun _ _ => rfl, fun _ => rfl, fun _ _ => rfl⟩

/-- C8 witness: a concrete remove-side backup keeps the copied entry and
holds the sidecar; a concrete update-side backup is a verbatim copy. -/
theorem C8_witness :
    lookupE (createBackupEntries "cbt" "TS" [("index.js", .file (.raw "x"))])
        ".backup-info.json"
      = some (.file (.binfo
          { portal := "cbt", backedUpAt := "TS", originalPath := "portals/" ++ "cbt",
            backupLocation := createBackupDirName "cbt" "TS" }))
    ∧ lookupE (createBackupEntries "cbt" "TS" [("index.js", .file (.raw "x"))]) "index.js"
        = lookupE [("index.js", .file (.raw "x"))] "index.js"
    ∧ backupPortalTree (.dir [("index.js", .file (.raw "x"))])
        = .dir [("index.js", .file (.raw "x"))] := by
  obtain ⟨h1, _, h3, _⟩ := C8_backup_primitives
  exact ⟨(h1 "cbt" "TS" [("index.js", .file (.raw "x"))]).1,
    (h1 "cbt" "TS" [("index.js", .file (.raw "x"))]).2 "index.js" (by decide),
    h3 _⟩

end EduTech
